import Mathlib

/-!
Verification of the AI interview platform backend (`backend/app.py`).

The backend is a thin orchestration layer: it extracts text from a PDF,
builds prompts, calls an external language model, scrapes JSON out of the
model's free-text output with regexes, and aggregates scores.  The shallow
embedding below mirrors the Python source:

* Python strings are Lean `String`s (sequences of unicode code points);
  the Python string helpers `strip`, `split`, `lower`, `title` are modelled
  for the ASCII range in which the source uses them.
* JSON values (`json.loads` results / Python dicts) are the inductive `Json`;
  Python dicts are insertion-ordered association lists, and assignment
  `d[k] = v` keeps the position of an existing key.
* The two PDF extraction libraries (`fitz`, `pdfplumber`) are external; each
  library pass is modelled by the list of page texts it produced before it
  either finished or raised (the `raised` flag records the swallowed
  exception).
* The language model call `generate(prompt, max_tokens, temp)` is external
  and nondeterministic; it is modelled as an uninterpreted function argument
  `gen : GenModel`, universally quantified in every theorem.
* Python floats are modelled as exact rationals and `round(x, 2)` as
  round-half-to-even on the second decimal (the rounding rule Python's
  `round` implements on the underlying value).
* `re.search` for the four concrete patterns of the source is modelled by a
  small backtracking engine (`RItem`) with Python's leftmost / greedy /
  lazy priorities.
-/

namespace AIInterview

/-! ### Python string helpers -/

/-- Python's `str.strip()` (for the ASCII whitespace the source
encounters): drop whitespace from both ends. -/
def pyStrip (s : String) : String :=
  ⟨((s.data.dropWhile Char.isWhitespace).reverse.dropWhile
      Char.isWhitespace).reverse⟩

/-- Python's `str.split(sep)` on character lists: cut at every character
satisfying `p`, keeping empty pieces (the accumulator holds the current
piece reversed). -/
def splitChars (p : Char → Bool) : List Char → List Char → List (List Char)
  | [], acc => [acc.reverse]
  | c :: rest, acc =>
    if p c then acc.reverse :: splitChars p rest []
    else splitChars p rest (c :: acc)

/-- Python's whitespace `str.split()` with no separator: split on
whitespace and drop empty pieces. -/
def pySplitWs (s : String) : List String :=
  ((splitChars Char.isWhitespace s.data []).map
      (fun cs => (⟨cs⟩ : String))).filter (fun p => p ≠ "")

/-- Python's `str.lower()` (ASCII model). -/
def pyLower (s : String) : String := ⟨s.data.map Char.toLower⟩

/-- One step of `str.title()`: upper-case a letter that follows a non-letter,
lower-case a letter that follows a letter. -/
def pyTitleAux : List Char → Bool → List Char
  | [], _ => []
  | c :: cs, prevAlpha =>
    (if c.isAlpha then (if prevAlpha then c.toLower else c.toUpper) else c)
      :: pyTitleAux cs c.isAlpha

/-- Python's `str.title()` (ASCII model). -/
def pyTitle (s : String) : String := ⟨pyTitleAux s.data false⟩

/-- Python's substring test `needle in haystack` on character lists. -/
def pyIn (needle : List Char) : List Char → Bool
  | [] => needle.isPrefixOf []
  | c :: rest => needle.isPrefixOf (c :: rest) || pyIn needle rest

/-! ### JSON values (results of `json.loads`, Python dicts) -/

/-- A parsed JSON value.  Python dicts are insertion-ordered association
lists; numbers are exact rationals. -/
inductive Json where
  | null : Json
  | bool (b : Bool) : Json
  | num (q : ℚ) : Json
  | str (s : String) : Json
  | arr (items : List Json) : Json
  | obj (fields : List (String × Json)) : Json

/-- Python dict assignment `d[k] = v`: overwrite the value in place if the
key exists (keeping its position), otherwise append the pair. -/
def dictAssign : List (String × Json) → String → Json → List (String × Json)
  | [], k, v => [(k, v)]
  | (k', v') :: rest, k, v =>
    if k' = k then (k', v) :: rest else (k', v') :: dictAssign rest k v

/-- Python dict lookup `d.get(k)` on the association list. -/
def dictGet : List (String × Json) → String → Option Json
  | [], _ => none
  | (k', v) :: rest, k => if k' = k then some v else dictGet rest k

/-- `d.get(k)` on a JSON value that is expected to be a dict. -/
def objGet (j : Json) (k : String) : Option Json :=
  match j with
  | Json.obj fields => dictGet fields k
  | _ => none

/-- Python truthiness of a JSON value (`None`, `False`, `0`, `""`, `[]`,
and the empty dict are falsy). -/
def pyTruthy : Json → Bool
  | Json.null => false
  | Json.bool b => b
  | Json.num q => q != 0
  | Json.str s => s != ""
  | Json.arr items => !items.isEmpty
  | Json.obj fields => !fields.isEmpty

/-! ### `json.loads`, modelled

A recursive-descent parser for the JSON grammar that Python's `json.loads`
accepts: optional whitespace (space, tab, newline, carriage return) between
tokens, objects with string keys (a duplicate key keeps its first position
and its last value), arrays without trailing commas, strings with the eight
short escapes and `\uXXXX` (surrogate pairs combined), and numbers without
leading zeros.  Python's non-standard `NaN`/`Infinity` literals have no
rational value and are not modelled; a lone surrogate escape (representable
in a Python `str` but not in a Lean `Char`) falls back to `Char.ofNat`'s
default.  No claim depends on either corner. -/

def jsonWs (c : Char) : Bool := c == ' ' || c == '\t' || c == '\n' || c == '\r'

def skipWs : List Char → List Char
  | [] => []
  | c :: cs => if jsonWs c then skipWs cs else c :: cs

def hexVal (c : Char) : Option ℕ :=
  if c.isDigit then some (c.toNat - '0'.toNat)
  else if 'a' ≤ c ∧ c ≤ 'f' then some (c.toNat - 'a'.toNat + 10)
  else if 'A' ≤ c ∧ c ≤ 'F' then some (c.toNat - 'A'.toNat + 10)
  else none

def escChar (c : Char) : Option Char :=
  if c = '"' then some '"'
  else if c = '\\' then some '\\'
  else if c = '/' then some '/'
  else if c = 'b' then some (Char.ofNat 8)
  else if c = 'f' then some (Char.ofNat 12)
  else if c = 'n' then some '\n'
  else if c = 'r' then some '\r'
  else if c = 't' then some '\t'
  else none

def surrogatePair (hi lo : ℕ) : ℕ :=
  0x10000 + (hi - 0xD800) * 0x400 + (lo - 0xDC00)

/-- Body of a JSON string after the opening quote: the decoded characters
and the input after the closing quote.  The fuel argument only serves
termination; every step consumes at least one character, so the wrapper
`parseJString` supplies enough.  (A second `\uXXXX` escape after a lone
high surrogate is decoded on its own; a Python `str` can keep lone
surrogates, a Lean `Char` cannot, so this region is approximate — no
claim touches it.) -/
def parseStringBody : ℕ → List Char → Option (List Char × List Char)
  | 0, _ => none
  | _, [] => none
  | _ + 1, '"' :: rest => some ([], rest)
  | fuel + 1, '\\' :: 'u' :: h1 :: h2 :: h3 :: h4 :: rest =>
    match hexVal h1, hexVal h2, hexVal h3, hexVal h4 with
    | some a, some b, some c, some d =>
      let n := ((a * 16 + b) * 16 + c) * 16 + d
      if 0xD800 ≤ n ∧ n ≤ 0xDBFF then
        match rest with
        | '\\' :: 'u' :: g1 :: g2 :: g3 :: g4 :: rest2 =>
          match hexVal g1, hexVal g2, hexVal g3, hexVal g4 with
          | some a2, some b2, some c2, some d2 =>
            let m := ((a2 * 16 + b2) * 16 + c2) * 16 + d2
            if 0xDC00 ≤ m ∧ m ≤ 0xDFFF then
              (parseStringBody fuel rest2).map
                (fun p => (Char.ofNat (surrogatePair n m) :: p.1, p.2))
            else
              (parseStringBody fuel rest2).map
                (fun p => (Char.ofNat n :: Char.ofNat m :: p.1, p.2))
          | _, _, _, _ => none
        | _ => (parseStringBody fuel rest).map (fun p => (Char.ofNat n :: p.1, p.2))
      else
        (parseStringBody fuel rest).map (fun p => (Char.ofNat n :: p.1, p.2))
    | _, _, _, _ => none
  | fuel + 1, '\\' :: c :: rest =>
    match escChar c with
    | some ec => (parseStringBody fuel rest).map (fun p => (ec :: p.1, p.2))
    | none => none
  | fuel + 1, c :: rest =>
    if c.toNat < 0x20 then none
    else (parseStringBody fuel rest).map (fun p => (c :: p.1, p.2))

/-- A JSON string body with sufficient fuel. -/
def parseJString (s : List Char) : Option (List Char × List Char) :=
  parseStringBody (s.length + 1) s

def takeDigits : List Char → List Char × List Char
  | [] => ([], [])
  | c :: rest =>
    if c.isDigit then
      let p := takeDigits rest
      (c :: p.1, p.2)
    else ([], c :: rest)

def digitsVal (ds : List Char) : ℕ :=
  ds.foldl (fun acc c => acc * 10 + (c.toNat - '0'.toNat)) 0

/-- Exponent part of a JSON number, after the `e`/`E`. -/
def parseExpPart (s : List Char) : Option (ℤ × List Char) :=
  let signed : ℤ × List Char :=
    match s with
    | '+' :: rest => (1, rest)
    | '-' :: rest => (-1, rest)
    | _ => (1, s)
  let p := takeDigits signed.2
  if p.1 = [] then none else some (signed.1 * (digitsVal p.1 : ℤ), p.2)

/-- A JSON number: optional minus, integer part without leading zeros,
optional fraction, optional exponent. -/
def parseNumber (s : List Char) : Option (ℚ × List Char) :=
  let signed : Bool × List Char :=
    match s with
    | '-' :: rest => (true, rest)
    | _ => (false, s)
  let intp := takeDigits signed.2
  if intp.1 = [] then none
  else if 2 ≤ intp.1.length ∧ intp.1.head? = some '0' then none
  else
    let fracStep : Option (List Char × List Char) :=
      match intp.2 with
      | '.' :: rest =>
        let p := takeDigits rest
        if p.1 = [] then none else some (p.1, p.2)
      | _ => some ([], intp.2)
    match fracStep with
    | none => none
    | some (fracs, s3) =>
      let expStep : Option (ℤ × List Char) :=
        match s3 with
        | 'e' :: rest => parseExpPart rest
        | 'E' :: rest => parseExpPart rest
        | _ => some (0, s3)
      match expStep with
      | none => none
      | some (ex, s4) =>
        let mag : ℤ := (digitsVal (intp.1 ++ fracs) : ℤ)
        let mant : ℤ := if signed.1 then -mag else mag
        let value : ℚ :=
          if 0 ≤ ex then
            mkRat (mant * ((10 ^ ex.toNat : ℕ) : ℤ)) (10 ^ fracs.length)
          else mkRat mant (10 ^ fracs.length * 10 ^ (-ex).toNat)
        some (value, s4)

mutual

def parseValue : ℕ → List Char → Option (Json × List Char)
  | 0, _ => none
  | _ + 1, 'n' :: 'u' :: 'l' :: 'l' :: rest => some (Json.null, rest)
  | _ + 1, 't' :: 'r' :: 'u' :: 'e' :: rest => some (Json.bool true, rest)
  | _ + 1, 'f' :: 'a' :: 'l' :: 's' :: 'e' :: rest => some (Json.bool false, rest)
  | _ + 1, '"' :: rest =>
    (parseJString rest).map (fun p => (Json.str ⟨p.1⟩, p.2))
  | fuel + 1, '[' :: rest =>
    match skipWs rest with
    | ']' :: rest2 => some (Json.arr [], rest2)
    | s2 => (parseItems fuel s2).map (fun p => (Json.arr p.1, p.2))
  | fuel + 1, '{' :: rest =>
    match skipWs rest with
    | '}' :: rest2 => some (Json.obj [], rest2)
    | s2 =>
      (parseFields fuel s2).map
        (fun p =>
          (Json.obj (p.1.foldl (fun acc kv => dictAssign acc kv.1 kv.2) []), p.2))
  | _ + 1, s => (parseNumber s).map (fun p => (Json.num p.1, p.2))

def parseItems : ℕ → List Char → Option (List Json × List Char)
  | 0, _ => none
  | fuel + 1, s =>
    match parseValue fuel s with
    | none => none
    | some (v, r) =>
      match skipWs r with
      | ',' :: r2 => (parseItems fuel (skipWs r2)).map (fun p => (v :: p.1, p.2))
      | ']' :: r2 => some ([v], r2)
      | _ => none

def parseFields : ℕ → List Char → Option (List (String × Json) × List Char)
  | 0, _ => none
  | fuel + 1, s =>
    match s with
    | '"' :: rest =>
      match parseJString rest with
      | none => none
      | some (kcs, r) =>
        match skipWs r with
        | ':' :: r2 =>
          match parseValue fuel (skipWs r2) with
          | none => none
          | some (v, r3) =>
            match skipWs r3 with
            | ',' :: r4 =>
              (parseFields fuel (skipWs r4)).map
                (fun p => ((⟨kcs⟩, v) :: p.1, p.2))
            | '}' :: r4 => some ([(⟨kcs⟩, v)], r4)
            | _ => none
        | _ => none
    | _ => none

end

/-- Python's `json.loads`: parse one JSON value, allowing surrounding
whitespace and rejecting any trailing data. -/
def jsonLoads (text : String) : Option Json :=
  match parseValue (2 * text.data.length + 4) (skipWs text.data) with
  | some (v, rest) => if skipWs rest = [] then some v else none
  | none => none

/-! ### `re.search`, modelled for the source's four patterns

The four patterns of the source are concatenations of single-character
classes, greedy `+` / `{n,}` / `?` over a class, a lazy `.*?`, and the word
boundary `\b`.  A backtracking matcher for such a pattern can list, for each
item at a position, its candidate end positions in the engine's preference
order (greedy: longest first; lazy: shortest first); the whole pattern's
matches at a start position are then the lexicographic combination, and
`re.search` takes the first start position with a match and the first match
there (leftmost, then preferred). -/

/-- One item of a pattern. -/
inductive RItem where
  | one (p : Char → Bool)
  | many1 (p : Char → Bool)
  | optc (p : Char → Bool)
  | atLeast (p : Char → Bool) (n : ℕ)
  | lazyStar (p : Char → Bool)
  | boundary

/-- Length of the maximal run of characters satisfying `p`. -/
def runLenAux (p : Char → Bool) : List Char → ℕ
  | [] => 0
  | c :: cs => if p c then runLenAux p cs + 1 else 0

/-- Length of the maximal run of characters satisfying `p` starting at
position `i` of `s`. -/
def runLenFrom (s : List Char) (p : Char → Bool) (i : ℕ) : ℕ :=
  runLenAux p (s.drop i)

/-- Python's `\w` (ASCII model, as the source's inputs are ASCII). -/
def isWordChar (c : Char) : Bool := c.isAlphanum || c == '_'

/-- Is the character at position `i` a word character (out of range counts
as not)? -/
def wordAt (s : List Char) (i : ℕ) : Bool :=
  match s[i]? with
  | some c => isWordChar c
  | none => false

/-- Python's `\b` at position `i`: word-character-ness changes between the
previous position and this one. -/
def boundaryAt (s : List Char) (i : ℕ) : Bool :=
  (if i = 0 then false else wordAt s (i - 1)) != wordAt s i

/-- Candidate end positions of one item at position `i`, in the regex
engine's preference order. -/
def itemCands (s : List Char) : RItem → ℕ → List ℕ
  | RItem.one p, i =>
    match s[i]? with
    | some c => if p c then [i + 1] else []
    | none => []
  | RItem.many1 p, i =>
    let r := runLenFrom s p i
    (List.range r).map (fun k => i + (r - k))
  | RItem.optc p, i =>
    match s[i]? with
    | some c => if p c then [i + 1, i] else [i]
    | none => [i]
  | RItem.atLeast p n, i =>
    let r := runLenFrom s p i
    if n ≤ r then (List.range (r - n + 1)).map (fun k => i + (r - k)) else []
  | RItem.lazyStar p, i =>
    let r := runLenFrom s p i
    (List.range (r + 1)).map (fun k => i + k)
  | RItem.boundary, i => if boundaryAt s i then [i] else []

/-- Candidate end positions of a whole pattern at position `i`, in
backtracking preference order. -/
def matchItems (s : List Char) : List RItem → ℕ → List ℕ
  | [], i => [i]
  | it :: rest, i => (itemCands s it i).flatMap (matchItems s rest)

/-- `re.search`: the first start position admitting a match, with the
engine-preferred end position there. -/
def reSearch (items : List RItem) (s : List Char) : Option (ℕ × ℕ) :=
  (List.range (s.length + 1)).findSome? (fun i =>
    match (matchItems s items i).head? with
    | some e => some (i, e)
    | none => none)

/-- `re.search(...).group()`: the matched substring, if any. -/
def reSearchStr (items : List RItem) (text : String) : Option String :=
  match reSearch items text.data with
  | some (i, e) => some ⟨(text.data.drop i).take (e - i)⟩
  | none => none

/-- Character class `[\w.-]` of the email pattern. -/
def emailCls (c : Char) : Bool := isWordChar c || c == '.' || c == '-'

/-- The source's email pattern: `\b[\w.-]+@[\w.-]+\.\w+\b`. -/
def emailPattern : List RItem :=
  [RItem.boundary, RItem.many1 emailCls, RItem.one (· == '@'),
   RItem.many1 emailCls, RItem.one (· == '.'), RItem.many1 isWordChar,
   RItem.boundary]

/-- Character class `[0-9 \-\(\)]` of the phone pattern. -/
def phoneCls (c : Char) : Bool :=
  c.isDigit || c == ' ' || c == '-' || c == '(' || c == ')'

/-- The source's phone pattern: `[\+\(]?[0-9][0-9 \-\(\)]{8,}`. -/
def phonePattern : List RItem :=
  [RItem.optc (fun c => c == '+' || c == '('), RItem.one Char.isDigit,
   RItem.atLeast phoneCls 8]

/-- The pattern `\{.*?\}` with `re.DOTALL` (the lazy star accepts every
character). -/
def bracePattern : List RItem :=
  [RItem.one (· == '{'), RItem.lazyStar (fun _ => true), RItem.one (· == '}')]

/-- The pattern `\[.*?\]` with `re.DOTALL`. -/
def bracketPattern : List RItem :=
  [RItem.one (· == '['), RItem.lazyStar (fun _ => true), RItem.one (· == ']')]

def emailSearch (text : String) : Option String := reSearchStr emailPattern text

def phoneSearch (text : String) : Option String := reSearchStr phonePattern text

def braceMatch (text : String) : Option String := reSearchStr bracePattern text

def bracketMatch (text : String) : Option String := reSearchStr bracketPattern text

/-! ### `extract_json` -/

/-- `extract_json(text)`: on falsy (empty) text return `None`; otherwise try
to `json.loads` the first lazy `{.*?}` match, then the first lazy `[.*?]`
match, and return `None` if both fail. -/
def extract_json (text : String) : Option Json :=
  if text = "" then none
  else
    match (braceMatch text).bind jsonLoads with
    | some v => some v
    | none =>
      match (bracketMatch text).bind jsonLoads with
      | some v => some v
      | none => none

/-! ### `json.dumps(..., indent=2)`, modelled (used only to build the
question-generation prompt) -/

def hexDigit (n : ℕ) : Char :=
  if n < 10 then Char.ofNat ('0'.toNat + n) else Char.ofNat ('a'.toNat + n - 10)

def hex4 (n : ℕ) : String :=
  ⟨[hexDigit (n / 4096 % 16), hexDigit (n / 256 % 16),
    hexDigit (n / 16 % 16), hexDigit (n % 16)]⟩

/-- One character of a dumped JSON string, with `ensure_ascii` escaping. -/
def jsonEscChar (c : Char) : String :=
  if c = '"' then "\\\""
  else if c = '\\' then "\\\\"
  else if c = '\n' then "\\n"
  else if c = '\r' then "\\r"
  else if c = '\t' then "\\t"
  else if c.toNat = 8 then "\\b"
  else if c.toNat = 12 then "\\f"
  else if c.toNat < 0x20 then "\\u" ++ hex4 c.toNat
  else if c.toNat < 0x7F then ⟨[c]⟩
  else if c.toNat < 0x10000 then "\\u" ++ hex4 c.toNat
  else
    let v := c.toNat - 0x10000
    "\\u" ++ hex4 (0xD800 + v / 0x400) ++ "\\u" ++ hex4 (0xDC00 + v % 0x400)

def jsonQuote (s : String) : String :=
  "\"" ++ String.join (s.data.map jsonEscChar) ++ "\""

/-- Serialization of a JSON number.  Integers print as in Python; the
source only ever dumps integer-free or integer-valued fields, so Python's
float notation for non-integers is not reproduced (no claim depends on the
prompt text). -/
def numDumps (q : ℚ) : String :=
  if q.den = 1 then toString q.num else toString q

def spaces (n : ℕ) : String := ⟨List.replicate n ' '⟩

/-- `json.dumps(v, indent=2)` at nesting depth `level`. -/
def jsonDumps (v : Json) (level : ℕ) : String :=
  match v with
  | Json.null => "null"
  | Json.bool true => "true"
  | Json.bool false => "false"
  | Json.num q => numDumps q
  | Json.str s => jsonQuote s
  | Json.arr [] => "[]"
  | Json.arr (x :: xs) =>
    "[\n"
      ++ String.intercalate ",\n"
        (((x :: xs).attach).map
          (fun y => spaces ((level + 1) * 2) ++ jsonDumps y.1 (level + 1)))
      ++ "\n" ++ spaces (level * 2) ++ "]"
  | Json.obj [] => "\x7b\x7d"
  | Json.obj (f :: fs) =>
    "\x7b\n"
      ++ String.intercalate ",\n"
        (((f :: fs).attach).map
          (fun kv =>
            spaces ((level + 1) * 2) ++ jsonQuote kv.1.1 ++ ": "
              ++ jsonDumps kv.1.2 (level + 1)))
      ++ "\n" ++ spaces (level * 2) ++ "\x7d"
termination_by sizeOf v
decreasing_by
  · have h := List.sizeOf_lt_of_mem y.2
    simp only [Json.arr.sizeOf_spec]
    omega
  · have h := List.sizeOf_lt_of_mem kv.2
    have h2 : sizeOf kv.1.2 < sizeOf kv.1 := by
      rcases hkv : kv.1 with ⟨a, b⟩
      simp only [Prod.mk.sizeOf_spec, hkv]
      omega
    simp only [Json.obj.sizeOf_spec]
    omega

/-! ### The model client and the prompts

`generate(prompt, max_tokens=800, temp=0.7)` wraps an external language
model; its output is unconstrained, so it is modelled as an uninterpreted
function of the prompt, the token budget and the temperature, universally
quantified in every theorem about the functions that call it. -/

/-- The external model: prompt, `max_tokens`, `temp` to completion text. -/
abbrev GenModel := String → ℕ → ℚ → String

/-- The f-string prompt of `extract_resume` (literal braces written as
their escapes). -/
def resumePrompt (text : String) : String :=
  "\nExtract resume info and return ONLY JSON.\n\n" ++ text.take 2000
    ++ "\n\nFormat:\n\x7b\n  \"name\": \"\",\n  \"email\": \"\",\n  \"phone\": \"\",\n  \"skills\": [],\n  \"experience\": [],\n  \"projects\": []\n\x7d\nJSON:\n"

/-- The f-string prompt of `gen_questions`, embedding
`json.dumps(resume, indent=2)`. -/
def questionsPrompt (resume : Json) (num : ℕ) : String :=
  "\nGenerate exactly " ++ toString num
    ++ " interview questions based on this resume.\n\n" ++ jsonDumps resume 0
    ++ "\n\nReturn ONLY JSON array:\n[\n  \x7b\"id\":1,\"question\":\"\",\"focus\":\"\"\x7d\n]\nJSON:\n"

/-- The f-string prompt of `gen_followup`. -/
def followupPrompt (question answer : String) : String :=
  "\nGenerate ONE follow-up question.\n\nQuestion: " ++ question
    ++ "\nAnswer: " ++ answer ++ "\n\nOnly the question:\n"

/-- The f-string prompt of `evaluate`. -/
def evalPrompt (question answer : String) : String :=
  "\nEvaluate the answer and return JSON.\n\nQuestion: " ++ question
    ++ "\nAnswer: " ++ answer
    ++ "\n\n\x7b\n  \"technical_accuracy\": 0,\n  \"completeness\": 0,\n  \"practical_knowledge\": 0,\n  \"communication\": 0,\n  \"total_score\": 0,\n  \"feedback\": \"\"\n\x7d\nJSON:\n"

/-! ### `extract_text_from_pdf`

Both PDF libraries are external.  A pass is modelled by the page texts it
contributed before finishing or raising; the swallowed exception is the
`raised` flag, which the function ignores — exactly the `except: pass` of
the source, where the `text` variable keeps whatever pages were appended
before the exception. -/

/-- Outcome of the `fitz` pass: the page texts appended to `text` before
the pass finished or raised. -/
structure FitzOutcome where
  pages : List String
  raised : Bool

/-- Outcome of the `pdfplumber` pass: `page.extract_text()` may return
`None`. -/
structure PlumberOutcome where
  pages : List (Option String)
  raised : Bool

/-- The `fitz` loop: `text += page.get_text()`. -/
def fitzText (pages : List String) : String :=
  pages.foldl (fun acc t => acc ++ t) ""

/-- The `pdfplumber` loop: `if t: text += t + "\n"`. -/
def plumberText (pages : List (Option String)) : String :=
  pages.foldl
    (fun acc t? =>
      match t? with
      | some t => if t ≠ "" then acc ++ t ++ "\n" else acc
      | none => acc) ""

/-- `extract_text_from_pdf`: both passes run, their outputs concatenate,
and the result is stripped.  Total: a library exception only truncates the
pages that pass contributed. -/
def extract_text_from_pdf (o1 : FitzOutcome) (o2 : PlumberOutcome) : String :=
  pyStrip (fitzText o1.pages ++ plumberText o2.pages)

/-! ### `extract_resume_basic` and `extract_resume` -/

/-- The hardcoded skill keywords. -/
def skills_list : List String :=
  ["python", "java", "javascript", "react", "sql", "aws",
   "docker", "machine learning", "deep learning", "nlp"]

/-- The stripped non-empty lines of the text
(`[l.strip() for l in text.split("\\n") if l.strip()]`). -/
def nonEmptyLines (text : String) : List String :=
  (((splitChars (fun c => c == '\n') text.data []).map
      (fun cs => pyStrip ⟨cs⟩))).filter (fun l => l ≠ "")

/-- The first line of at most 4 words among the first five non-empty
lines. -/
def firstShortLine (text : String) : Option String :=
  ((nonEmptyLines text).take 5).find? (fun l => (pySplitWs l).length ≤ 4)

/-- `extract_resume_basic(text)`: the regex-only fallback extractor. -/
def extract_resume_basic (text : String) : Json :=
  let data0 : List (String × Json) :=
    [("name", Json.str "Unknown"), ("email", Json.str ""),
     ("phone", Json.str ""), ("skills", Json.arr []),
     ("experience", Json.arr []), ("projects", Json.arr [])]
  let data1 :=
    match emailSearch text with
    | some m => dictAssign data0 "email" (Json.str m)
    | none => data0
  let data2 :=
    match phoneSearch text with
    | some m => dictAssign data1 "phone" (Json.str m)
    | none => data1
  let data3 :=
    match firstShortLine text with
    | some l => dictAssign data2 "name" (Json.str l)
    | none => data2
  let skills :=
    (skills_list.filter (fun s => pyIn s.data (pyLower text).data)).map
      (fun s => Json.str (pyTitle s))
  Json.obj (dictAssign data3 "skills" (Json.arr skills))

/-- The guard `isinstance(data, dict) and data.get("name")` on the parsed
model output. -/
def usableResume : Option Json → Bool
  | some (Json.obj fields) =>
    pyTruthy ((dictGet fields "name").getD Json.null)
  | _ => false

/-- `extract_resume(pdf_file)`: extract text, reject fewer than 30
characters with a `ValueError`, otherwise ask the model (temperature 0.1)
and fall back to `extract_resume_basic` when the parsed output is not a
dict with a truthy name. -/
def extract_resume (gen : GenModel) (o1 : FitzOutcome) (o2 : PlumberOutcome) :
    Except String Json :=
  let text := extract_text_from_pdf o1 o2
  if text = "" ∨ text.length < 30 then
    Except.error "Could not extract text from resume"
  else
    let response := gen (resumePrompt text) 800 (1/10)
    match extract_json response with
    | some d =>
      if usableResume (some d) then Except.ok d
      else Except.ok (extract_resume_basic text)
    | none => Except.ok (extract_resume_basic text)

/-! ### `gen_questions` -/

/-- The loop `for i, q in enumerate(questions): q["id"] = i + 1`.
Assigning into a non-dict element raises a `TypeError`, modelled as the
error case. -/
def assignIds : List Json → ℕ → Except String (List Json)
  | [], _ => Except.ok []
  | Json.obj fields :: rest, i =>
    match assignIds rest (i + 1) with
    | Except.ok rest' =>
      Except.ok (Json.obj (dictAssign fields "id" (Json.num ((i + 1 : ℕ) : ℚ))) :: rest')
    | Except.error e => Except.error e
  | _ :: _, _ => Except.error "TypeError: item assignment on a non-dict"

/-- `gen_questions(resume, num)`: prompt the model, and if the scraped JSON
is a list, overwrite the ids positionally and truncate to `num`; otherwise
return the empty list.  The error case is the `TypeError` the id loop
raises on a non-dict element. -/
def gen_questions (gen : GenModel) (resume : Json) (num : ℕ) :
    Except String (List Json) :=
  let response := gen (questionsPrompt resume num) 800 (7/10)
  match extract_json response with
  | some (Json.arr questions) =>
    match assignIds questions 0 with
    | Except.ok questions' => Except.ok (questions'.take num)
    | Except.error e => Except.error e
  | _ => Except.ok []

/-! ### `gen_followup` and `evaluate` -/

/-- `gen_followup(question, answer)`: canned reply for a short trimmed
answer, otherwise one model call capped at 100 tokens. -/
def gen_followup (gen : GenModel) (question answer : String) : String :=
  if (pyStrip answer).length < 10 then "Could you explain more?"
  else gen (followupPrompt question answer) 100 (7/10)

/-- The static fallback evaluation object. -/
def default_evaluation : Json :=
  Json.obj
    [("technical_accuracy", Json.num 10), ("completeness", Json.num 10),
     ("practical_knowledge", Json.num 10), ("communication", Json.num 10),
     ("total_score", Json.num 40), ("feedback", Json.str "Answer evaluated.")]

/-- `evaluate(question, answer)`: the scraped dict when there is one,
otherwise the static fallback. -/
def evaluate (gen : GenModel) (question answer : String) : Json :=
  let response := gen (evalPrompt question answer) 800 (1/5)
  match extract_json response with
  | some (Json.obj fields) => Json.obj fields
  | _ => default_evaluation

/-! ### `final_report`

`final_report` reads only the `total_score` field of each record; scores
are Python numbers, modelled as exact rationals, and `round(avg, 2)` as
round-half-to-even on the second decimal. -/

/-- An evaluation record as `final_report` consumes it. -/
structure Evaluation where
  total_score : ℚ

/-- The report object (`total_questions` is absent from the empty-input
sentinel). -/
structure FinalReport where
  overall_score : ℚ
  performance_level : String
  total_questions : Option ℕ

/-- Round to the nearest integer, ties to even. -/
def roundHalfEven (q : ℚ) : ℤ :=
  let f := ⌊q⌋
  let r := q - (f : ℚ)
  if r < 1/2 then f
  else if 1/2 < r then f + 1
  else if f % 2 = 0 then f else f + 1

/-- Python's `round(q, 2)` on the exact value. -/
def pyRound2 (q : ℚ) : ℚ := ((roundHalfEven (q * 100) : ℤ) : ℚ) / 100

/-- `sum(e["total_score"] for e in evaluations) / len(evaluations)`. -/
def meanScore (evaluations : List Evaluation) : ℚ :=
  ((evaluations.map Evaluation.total_score).sum) / (evaluations.length : ℚ)

/-- `final_report(evaluations)`. -/
def final_report (evaluations : List Evaluation) : FinalReport :=
  match evaluations with
  | [] => ⟨0, "No answers", none⟩
  | _ :: _ =>
    ⟨pyRound2 (meanScore evaluations),
     if 80 ≤ meanScore evaluations then "Excellent"
     else if 60 ≤ meanScore evaluations then "Good"
     else "Average",
     some evaluations.length⟩

/-! ### The `/upload_resume` endpoint -/

/-- A JSON HTTP response. -/
structure HttpResponse where
  status_code : ℕ
  content : Json

/-- `POST /upload_resume`: the `except Exception` handler turns the
`ValueError` of `extract_resume` into a 500 with `{"error": str(e)}`. -/
def upload_resume (gen : GenModel) (o1 : FitzOutcome) (o2 : PlumberOutcome) :
    HttpResponse :=
  match extract_resume gen o1 o2 with
  | Except.ok resume => ⟨200, Json.obj [("resume", resume)]⟩
  | Except.error e => ⟨500, Json.obj [("error", Json.str e)]⟩

/-! ## Theorems for the claims -/

/-- Rounding an integer value is the identity. -/
theorem roundHalfEven_intCast (n : ℤ) : roundHalfEven ((n : ℚ)) = n := by
  simp only [roundHalfEven, Int.floor_intCast, sub_self]
  norm_num

/-- `round(n, 2)` on an integer value is the identity. -/
theorem pyRound2_intCast (n : ℤ) : pyRound2 ((n : ℚ)) = n := by
  unfold pyRound2
  have h : ((n : ℚ)) * 100 = ((n * 100 : ℤ) : ℚ) := by push_cast; ring
  rw [h, roundHalfEven_intCast]
  push_cast
  exact mul_div_cancel_right₀ _ (by norm_num)

/-- C1.  `final_report([])` is the zero / "No answers" sentinel (with no
question count), and on a non-empty list the overall score is the mean of
the `total_score` fields rounded to two decimals, with `total_questions`
the length. -/
theorem final_report_empty_and_mean :
    final_report [] = ⟨0, "No answers", none⟩ ∧
    ∀ (evals : List Evaluation), evals ≠ [] →
      (final_report evals).overall_score
          = pyRound2 (((evals.map Evaluation.total_score).sum) / (evals.length : ℚ)) ∧
      (final_report evals).total_questions = some evals.length := by
  refine ⟨rfl, ?_⟩
  intro evals h
  match evals with
  | e :: rest => exact ⟨rfl, rfl⟩

/-- Witness for C1 at a concrete input. -/
theorem final_report_empty_and_mean_witness :
    (final_report [⟨50⟩]).overall_score = 50 ∧
    (final_report [⟨50⟩]).total_questions = some 1 := by
  have h := final_report_empty_and_mean.2 [⟨50⟩] (List.cons_ne_nil _ _)
  refine ⟨h.1.trans ?_, h.2⟩
  have hm : (((List.map Evaluation.total_score [⟨50⟩]).sum)
      / ((([⟨50⟩] : List Evaluation).length : ℕ) : ℚ)) = ((50 : ℤ) : ℚ) := by
    norm_num
  rw [hm, pyRound2_intCast]
  norm_num

/-- C2.  On a non-empty list the label is determined by closed-open
thresholds on the (unrounded) mean: `≥ 80` Excellent, `[60, 80)` Good,
`< 60` Average. -/
theorem performance_level_thresholds :
    ∀ (evals : List Evaluation), evals ≠ [] →
      ((final_report evals).performance_level = "Excellent" ↔
        80 ≤ meanScore evals) ∧
      ((final_report evals).performance_level = "Good" ↔
        60 ≤ meanScore evals ∧ meanScore evals < 80) ∧
      ((final_report evals).performance_level = "Average" ↔
        meanScore evals < 60) := by
  intro evals h
  match evals with
  | e :: rest =>
    have hfr : (final_report (e :: rest)).performance_level
        = (if 80 ≤ meanScore (e :: rest) then "Excellent"
           else if 60 ≤ meanScore (e :: rest) then "Good" else "Average") := rfl
    rw [hfr]
    by_cases h80 : 80 ≤ meanScore (e :: rest)
    · rw [if_pos h80]
      refine ⟨⟨fun _ => h80, fun _ => rfl⟩, ⟨?_, ?_⟩, ⟨?_, ?_⟩⟩
      · intro hh
        exact absurd hh (by decide)
      · intro hh
        linarith [hh.2]
      · intro hh
        exact absurd hh (by decide)
      · intro hh
        linarith
    · rw [if_neg h80]
      push_neg at h80
      by_cases h60 : 60 ≤ meanScore (e :: rest)
      · rw [if_pos h60]
        refine ⟨⟨?_, ?_⟩, ⟨fun _ => ⟨h60, h80⟩, fun _ => rfl⟩, ⟨?_, ?_⟩⟩
        · intro hh
          exact absurd hh (by decide)
        · intro hh
          linarith
        · intro hh
          exact absurd hh (by decide)
        · intro hh
          linarith
      · rw [if_neg h60]
        push_neg at h60
        refine ⟨⟨?_, ?_⟩, ⟨?_, ?_⟩, ⟨fun _ => h60, fun _ => rfl⟩⟩
        · intro hh
          exact absurd hh (by decide)
        · intro hh
          linarith
        · intro hh
          exact absurd hh (by decide)
        · intro hh
          linarith [hh.1]

/-- Witness for C2 at the boundary inputs 80, 60, 59 and 79. -/
theorem performance_level_thresholds_witness :
    (final_report [⟨80⟩]).performance_level = "Excellent" ∧
    (final_report [⟨60⟩]).performance_level = "Good" ∧
    (final_report [⟨59⟩]).performance_level = "Average" ∧
    (final_report [⟨79⟩]).performance_level = "Good" := by
  refine ⟨((performance_level_thresholds [⟨80⟩] (List.cons_ne_nil _ _)).1).mpr (by norm_num [meanScore]),
    ((performance_level_thresholds [⟨60⟩] (List.cons_ne_nil _ _)).2.1).mpr (by norm_num [meanScore]),
    ((performance_level_thresholds [⟨59⟩] (List.cons_ne_nil _ _)).2.2).mpr (by norm_num [meanScore]),
    ((performance_level_thresholds [⟨79⟩] (List.cons_ne_nil _ _)).2.1).mpr (by norm_num [meanScore])⟩

/-- C5.  A whitespace-trimmed answer of fewer than 10 characters always
produces the fixed literal, independently of the model (the model is never
invoked). -/
theorem gen_followup_short_circuit :
    ∀ (gen gen' : GenModel) (question answer : String),
      (pyStrip answer).length < 10 →
      gen_followup gen question answer = "Could you explain more?" ∧
      gen_followup gen question answer = gen_followup gen' question answer := by
  intro gen gen' question answer h
  constructor
  · unfold gen_followup
    rw [if_pos h]
  · unfold gen_followup
    rw [if_pos h, if_pos h]

/-- Witness for C5: two different models, same canned output. -/
theorem gen_followup_short_circuit_witness :
    gen_followup (fun _ _ _ => "model A output") "Q" " short  "
        = "Could you explain more?" ∧
    gen_followup (fun _ _ _ => "model A output") "Q" " short  "
        = gen_followup (fun _ _ _ => "model B output") "Q" " short  " :=
  gen_followup_short_circuit _ _ "Q" " short  " (by decide)

/-- C6.  `evaluate` returns the scraped dict when JSON extraction yields
one, and exactly the static default object otherwise. -/
theorem evaluate_fallback_spec :
    ∀ (gen : GenModel) (question answer : String),
      (∀ fields,
        extract_json (gen (evalPrompt question answer) 800 (1/5))
            = some (Json.obj fields) →
        evaluate gen question answer = Json.obj fields) ∧
      ((∀ fields,
        extract_json (gen (evalPrompt question answer) 800 (1/5))
            ≠ some (Json.obj fields)) →
        evaluate gen question answer = default_evaluation) := by
  intro gen question answer
  constructor
  · intro fields h
    simp only [evaluate]
    rw [h]
  · intro hne
    cases hj : extract_json (gen (evalPrompt question answer) 800 (1/5)) with
    | none => simp only [evaluate, hj]
    | some v =>
      cases v with
      | obj fields => exact absurd hj (hne fields)
      | null => simp only [evaluate, hj]
      | bool b => simp only [evaluate, hj]
      | num q => simp only [evaluate, hj]
      | str s => simp only [evaluate, hj]
      | arr items => simp only [evaluate, hj]

/-- Witness for C6: a model whose output has no JSON gets the default; a
model emitting a dict gets that dict back. -/
theorem evaluate_fallback_spec_witness :
    evaluate (fun _ _ _ => "no json at all") "Q" "A" = default_evaluation ∧
    evaluate (fun _ _ _ => "\x7b\"total_score\": 55\x7d") "Q" "A"
        = Json.obj [("total_score", Json.num 55)] := by
  constructor
  · exact (evaluate_fallback_spec (fun _ _ _ => "no json at all") "Q" "A").2
      (fun fields h => Option.noConfusion h)
  · exact (evaluate_fallback_spec (fun _ _ _ => "\x7b\"total_score\": 55\x7d") "Q" "A").1
      [("total_score", Json.num 55)] rfl

/-- C7.  When fewer than 30 characters of text come out of the PDF,
`extract_resume` raises the `ValueError` and the endpoint answers 500 with
the message. -/
theorem extract_resume_short_text_error :
    ∀ (gen : GenModel) (o1 : FitzOutcome) (o2 : PlumberOutcome),
      (extract_text_from_pdf o1 o2).length < 30 →
      extract_resume gen o1 o2
          = Except.error "Could not extract text from resume" ∧
      upload_resume gen o1 o2
          = ⟨500, Json.obj [("error", Json.str "Could not extract text from resume")]⟩ := by
  intro gen o1 o2 h
  have he : extract_resume gen o1 o2
      = Except.error "Could not extract text from resume" := by
    unfold extract_resume
    rw [if_pos (Or.inr h)]
  refine ⟨he, ?_⟩
  unfold upload_resume
  rw [he]

/-- Witness for C7: a PDF from which nothing is extracted. -/
theorem extract_resume_short_text_error_witness :
    extract_resume (fun _ _ _ => "") ⟨[], false⟩ ⟨[], false⟩
        = Except.error "Could not extract text from resume" ∧
    upload_resume (fun _ _ _ => "") ⟨[], false⟩ ⟨[], false⟩
        = ⟨500, Json.obj [("error", Json.str "Could not extract text from resume")]⟩ :=
  extract_resume_short_text_error _ _ _ (by decide)

/-- Auxiliary for C9: pages that are `None` or empty contribute nothing to
the `pdfplumber` accumulator. -/
theorem plumberText_nothing_aux :
    ∀ (pages : List (Option String)),
      (∀ t ∈ pages, t = none ∨ t = some "") →
      ∀ acc,
        pages.foldl
          (fun acc t? =>
            match t? with
            | some t => if t ≠ "" then acc ++ t ++ "\n" else acc
            | none => acc) acc = acc := by
  intro pages
  induction pages with
  | nil => intro _ acc; rfl
  | cons t rest ih =>
    intro h acc
    rcases h t (List.mem_cons_self t rest) with ht | ht
    · subst ht
      exact ih (fun u hu => h u (List.mem_cons_of_mem _ hu)) acc
    · subst ht
      simp only [List.foldl_cons]
      rw [if_neg (by simp)]
      exact ih (fun u hu => h u (List.mem_cons_of_mem _ hu)) acc

/-- C9.  `extract_text_from_pdf` is total (an exception in either library
pass only truncates its contribution and never changes the shape of the
result), returns the stripped concatenation of the two passes' outputs
without deduplication, and returns the empty string when neither pass
produced text. -/
theorem extract_text_total_concat :
    (∀ (o1 : FitzOutcome) (o2 : PlumberOutcome),
        extract_text_from_pdf o1 o2
          = pyStrip (fitzText o1.pages ++ plumberText o2.pages)) ∧
    (∀ (p1 : List String) (p2 : List (Option String)) (r1 r1' r2 r2' : Bool),
        extract_text_from_pdf ⟨p1, r1⟩ ⟨p2, r2⟩
          = extract_text_from_pdf ⟨p1, r1'⟩ ⟨p2, r2'⟩) ∧
    (∀ (o1 : FitzOutcome) (o2 : PlumberOutcome),
        o1.pages = [] → (∀ t ∈ o2.pages, t = none ∨ t = some "") →
        extract_text_from_pdf o1 o2 = "") := by
  refine ⟨fun o1 o2 => rfl, fun p1 p2 r1 r1' r2 r2' => rfl, ?_⟩
  intro o1 o2 h1 h2
  unfold extract_text_from_pdf
  rw [h1]
  have hp : plumberText o2.pages = "" := plumberText_nothing_aux o2.pages h2 ""
  rw [hp]
  rfl

/-- Witness for C9: both passes raised after contributing nothing (one
returned a `None` page and an empty page); the result is the empty
string. -/
theorem extract_text_total_concat_witness :
    extract_text_from_pdf ⟨[], true⟩ ⟨[none, some ""], true⟩ = "" :=
  extract_text_total_concat.2.2 ⟨[], true⟩ ⟨[none, some ""], true⟩ rfl (by decide)

/-- C3.  `extract_json` returns the parse of the first lazy `{...}` match
when that parses, else the parse of the first lazy `[...]` match when that
parses, else `None`; and the two quoted examples evaluate as the spec
states. -/
theorem extract_json_spec :
    (∀ (text sub : String) (v : Json),
        braceMatch text = some sub → jsonLoads sub = some v →
        extract_json text = some v) ∧
    (∀ (text : String) (v : Json),
        (braceMatch text).bind jsonLoads = none →
        (bracketMatch text).bind jsonLoads = some v →
        extract_json text = some v) ∧
    (∀ text : String,
        (braceMatch text).bind jsonLoads = none →
        (bracketMatch text).bind jsonLoads = none →
        extract_json text = none) ∧
    extract_json "Here is the result: \x7b\"a\": 1\x7d done"
        = some (Json.obj [("a", Json.num 1)]) ∧
    extract_json "\x7b\"a\": 1" = none := by
  have hempty : braceMatch "" = none := rfl
  have hempty2 : bracketMatch "" = none := rfl
  refine ⟨?_, ?_, ?_, rfl, rfl⟩
  · intro text sub v h1 h2
    have hne : text ≠ "" := by
      intro he
      subst he
      rw [hempty] at h1
      cases h1
    unfold extract_json
    rw [if_neg hne, h1, Option.some_bind, h2]
  · intro text v h1 h2
    have hne : text ≠ "" := by
      intro he
      subst he
      rw [hempty2] at h2
      cases h2
    unfold extract_json
    rw [if_neg hne, h1, h2]
  · intro text h1 h2
    by_cases hne : text = ""
    · subst hne
      rfl
    · unfold extract_json
      rw [if_neg hne, h1, h2]

/-- Witness for C3: a prose-wrapped object is scraped and parsed. -/
theorem extract_json_spec_witness :
    extract_json "ab \x7b\"k\": true\x7d cd"
        = some (Json.obj [("k", Json.bool true)]) :=
  extract_json_spec.1 "ab \x7b\"k\": true\x7d cd" "\x7b\"k\": true\x7d"
    (Json.obj [("k", Json.bool true)]) rfl rfl

/-- Auxiliary for C10: rounding a value in `[n + 1/2, n + 1)` for odd `n`
gives `n + 1` (the tie goes to the even side, which is up here). -/
theorem roundHalfEven_odd_up (q : ℚ) (n : ℤ) (hodd : n % 2 = 1)
    (h1 : (n : ℚ) + 1/2 ≤ q) (h2 : q < (n : ℚ) + 1) :
    roundHalfEven q = n + 1 := by
  have hfl : ⌊q⌋ = n := by
    rw [Int.floor_eq_iff]
    constructor
    · linarith
    · exact_mod_cast h2
  simp only [roundHalfEven, hfl]
  rw [if_neg (by linarith)]
  by_cases hr2 : 1/2 < q - (n : ℚ)
  · rw [if_pos hr2]
  · rw [if_neg hr2, if_neg (by omega)]

/-- C10.  The label is computed from the unrounded mean while the reported
score is rounded, so a mean in `[79.995, 80)` reports the score `80.0`
with the label "Good", and a mean in `[59.995, 60)` reports `60.0` with
"Average". -/
theorem overall_score_level_disagreement :
    ∀ (evals : List Evaluation), evals ≠ [] →
      ((79995/1000 : ℚ) ≤ meanScore evals → meanScore evals < 80 →
        (final_report evals).overall_score = 80 ∧
        (final_report evals).performance_level = "Good") ∧
      ((59995/1000 : ℚ) ≤ meanScore evals → meanScore evals < 60 →
        (final_report evals).overall_score = 60 ∧
        (final_report evals).performance_level = "Average") := by
  intro evals h
  match evals with
  | e :: rest =>
    constructor
    · intro hlo hhi
      constructor
      · show pyRound2 (meanScore (e :: rest)) = 80
        unfold pyRound2
        have hr : roundHalfEven (meanScore (e :: rest) * 100) = 8000 := by
          have := roundHalfEven_odd_up (meanScore (e :: rest) * 100) 7999
            (by norm_num) (by push_cast; linarith) (by push_cast; linarith)
          simpa using this
        rw [hr]
        norm_num
      · show (if 80 ≤ meanScore (e :: rest) then "Excellent"
            else if 60 ≤ meanScore (e :: rest) then "Good" else "Average")
            = "Good"
        rw [if_neg (by linarith), if_pos (by linarith)]
    · intro hlo hhi
      constructor
      · show pyRound2 (meanScore (e :: rest)) = 60
        unfold pyRound2
        have hr : roundHalfEven (meanScore (e :: rest) * 100) = 6000 := by
          have := roundHalfEven_odd_up (meanScore (e :: rest) * 100) 5999
            (by norm_num) (by push_cast; linarith) (by push_cast; linarith)
          simpa using this
        rw [hr]
        norm_num
      · show (if 80 ≤ meanScore (e :: rest) then "Excellent"
            else if 60 ≤ meanScore (e :: rest) then "Good" else "Average")
            = "Average"
        rw [if_neg (by linarith), if_neg (by linarith)]

/-- Witness for C10: the lists `[79.99, 80]` (mean exactly 79.995) and
`[59.99, 60]` (mean exactly 59.995). -/
theorem overall_score_level_disagreement_witness :
    ((final_report [⟨7999/100⟩, ⟨80⟩]).overall_score = 80 ∧
     (final_report [⟨7999/100⟩, ⟨80⟩]).performance_level = "Good") ∧
    ((final_report [⟨5999/100⟩, ⟨60⟩]).overall_score = 60 ∧
     (final_report [⟨5999/100⟩, ⟨60⟩]).performance_level = "Average") := by
  constructor
  · exact (overall_score_level_disagreement [⟨7999/100⟩, ⟨80⟩]
      (List.cons_ne_nil _ _)).1 (by norm_num [meanScore]) (by norm_num [meanScore])
  · exact (overall_score_level_disagreement [⟨5999/100⟩, ⟨60⟩]
      (List.cons_ne_nil _ _)).2 (by norm_num [meanScore]) (by norm_num [meanScore])

/-- C8.  When the model output is no dict with a truthy name (and the
text passed the length gate, so the model was consulted at all),
`extract_resume` returns the regex fallback; and the fallback populates
email and phone from the first regex matches, the name from the first
short line among the first five non-empty lines, and the skills from the
hardcoded keyword list by case-insensitive substring match. -/
theorem resume_fallback_spec :
    (∀ (gen : GenModel) (o1 : FitzOutcome) (o2 : PlumberOutcome),
        30 ≤ (extract_text_from_pdf o1 o2).length →
        usableResume (extract_json
            (gen (resumePrompt (extract_text_from_pdf o1 o2)) 800 (1/10)))
          = false →
        extract_resume gen o1 o2
          = Except.ok (extract_resume_basic (extract_text_from_pdf o1 o2))) ∧
    (∀ (text m : String), emailSearch text = some m →
        objGet (extract_resume_basic text) "email" = some (Json.str m)) ∧
    (∀ (text m : String), phoneSearch text = some m →
        objGet (extract_resume_basic text) "phone" = some (Json.str m)) ∧
    (∀ (text l : String), firstShortLine text = some l →
        objGet (extract_resume_basic text) "name" = some (Json.str l)) ∧
    (∀ text : String,
        objGet (extract_resume_basic text) "skills"
          = some (Json.arr ((skills_list.filter
              (fun s => pyIn s.data (pyLower text).data)).map
              (fun s => Json.str (pyTitle s))))) := by
  refine ⟨?_, ?_, ?_, ?_, ?_⟩
  · intro gen o1 o2 hlen husable
    have hcond : ¬ (extract_text_from_pdf o1 o2 = ""
        ∨ (extract_text_from_pdf o1 o2).length < 30) := by
      rintro (he | hl)
      · rw [he] at hlen
        simp at hlen
      · omega
    simp only [extract_resume]
    rw [if_neg hcond]
    cases hd : extract_json
        (gen (resumePrompt (extract_text_from_pdf o1 o2)) 800 (1/10)) with
    | none => rfl
    | some d =>
      rw [hd] at husable
      simp [husable]
  · intro text m hm
    cases hp : phoneSearch text <;> cases hl : firstShortLine text <;>
      (simp only [extract_resume_basic, hm, hp, hl]; try rfl)
  · intro text m hm
    cases he : emailSearch text <;> cases hl : firstShortLine text <;>
      (simp only [extract_resume_basic, he, hm, hl]; try rfl)
  · intro text l hl
    cases he : emailSearch text <;> cases hp : phoneSearch text <;>
      (simp only [extract_resume_basic, he, hp, hl]; try rfl)
  · intro text
    cases he : emailSearch text <;> cases hp : phoneSearch text <;>
        cases hl : firstShortLine text <;>
      (simp only [extract_resume_basic, he, hp, hl]; try rfl)

/-- A sample resume text with a name line, an email, a phone number and
two of the skill keywords. -/
def sampleResumeText : String :=
  "John Smith\njohn.smith@example.com\n+1 234-555-6789\nSkilled in Python and SQL development"

/-- A model that returns no text at all. -/
def silentGen : GenModel := fun _ _ _ => ""

/-- Witness for C8: on the sample text, with a silent model, the fallback
is returned and fills every field as the claim states. -/
theorem resume_fallback_spec_witness :
    extract_resume silentGen ⟨[sampleResumeText], false⟩ ⟨[], false⟩
        = Except.ok (extract_resume_basic sampleResumeText) ∧
    objGet (extract_resume_basic sampleResumeText) "email"
        = some (Json.str "john.smith@example.com") ∧
    objGet (extract_resume_basic sampleResumeText) "phone"
        = some (Json.str "+1 234-555-6789") ∧
    objGet (extract_resume_basic sampleResumeText) "name"
        = some (Json.str "John Smith") ∧
    objGet (extract_resume_basic sampleResumeText) "skills"
        = some (Json.arr [Json.str "Python", Json.str "Sql"]) := by
  refine ⟨?_, ?_, ?_, ?_, ?_⟩
  · exact resume_fallback_spec.1 silentGen ⟨[sampleResumeText], false⟩
      ⟨[], false⟩ (by decide) rfl
  · exact resume_fallback_spec.2.1 sampleResumeText "john.smith@example.com" rfl
  · exact resume_fallback_spec.2.2.1 sampleResumeText "+1 234-555-6789" rfl
  · exact resume_fallback_spec.2.2.2.1 sampleResumeText "John Smith" rfl
  · exact (resume_fallback_spec.2.2.2.2 sampleResumeText).trans rfl

/-! ### C4: `gen_questions` -/

/-- Is this JSON value a Python dict? -/
def isDict : Json → Bool
  | Json.obj _ => true
  | _ => false

/-- Assignment makes the key present with the assigned value. -/
theorem dictGet_dictAssign_self (fields : List (String × Json)) (k : String)
    (v : Json) : dictGet (dictAssign fields k v) k = some v := by
  induction fields with
  | nil => simp [dictAssign, dictGet]
  | cons kv rest ih =>
    rcases kv with ⟨k', v'⟩
    by_cases hk : k' = k
    · simp [dictAssign, dictGet, hk]
    · simp [dictAssign, dictGet, hk, ih]

/-- The id loop succeeds on a list of dicts. -/
theorem assignIds_ok_of_all_dict :
    ∀ (qs : List Json), (∀ q ∈ qs, isDict q = true) →
      ∀ n, ∃ qs', assignIds qs n = Except.ok qs' := by
  intro qs
  induction qs with
  | nil => exact fun _ n => ⟨[], rfl⟩
  | cons q rest ih =>
    intro hall n
    cases q with
    | obj fields =>
      obtain ⟨rest', hr⟩ := ih (fun u hu => hall u (List.mem_cons_of_mem _ hu)) (n + 1)
      refine ⟨Json.obj (dictAssign fields "id" (Json.num ((n + 1 : ℕ) : ℚ))) :: rest', ?_⟩
      simp only [assignIds, hr]
    | null => exact absurd (hall _ (List.mem_cons_self _ _)) (by simp [isDict])
    | bool b => exact absurd (hall _ (List.mem_cons_self _ _)) (by simp [isDict])
    | num x => exact absurd (hall _ (List.mem_cons_self _ _)) (by simp [isDict])
    | str s => exact absurd (hall _ (List.mem_cons_self _ _)) (by simp [isDict])
    | arr items => exact absurd (hall _ (List.mem_cons_self _ _)) (by simp [isDict])

/-- When the id loop succeeds, it preserves the length and every element
carries the id `n + i + 1` at position `i` (`n` the starting counter). -/
theorem assignIds_ok_spec :
    ∀ (qs : List Json) (n : ℕ) (qs' : List Json),
      assignIds qs n = Except.ok qs' →
      qs'.length = qs.length ∧
      ∀ i (h : i < qs'.length),
        objGet (qs'.get ⟨i, h⟩) "id" = some (Json.num ((n + i + 1 : ℕ) : ℚ)) := by
  intro qs
  induction qs with
  | nil =>
    intro n qs' h
    simp only [assignIds] at h
    injection h with h2
    subst h2
    exact ⟨rfl, fun i hi => absurd hi (by simp)⟩
  | cons q rest ih =>
    intro n qs' h
    cases q with
    | obj fields =>
      simp only [assignIds] at h
      cases hr : assignIds rest (n + 1) with
      | error e =>
        rw [hr] at h
        cases h
      | ok rest' =>
        rw [hr] at h
        injection h with h2
        subst h2
        obtain ⟨hlen, hids⟩ := ih (n + 1) rest' hr
        refine ⟨by simp [hlen], ?_⟩
        intro i hi
        cases i with
        | zero =>
          show objGet (Json.obj (dictAssign fields "id"
              (Json.num ((n + 1 : ℕ) : ℚ)))) "id" = _
          simp only [objGet, dictGet_dictAssign_self]
        | succ j =>
          have hj : j < rest'.length := by
            simp only [List.length_cons] at hi
            omega
          have hh := hids j hj
          have harith : (n + 1) + j + 1 = n + (j + 1) + 1 := by omega
          rw [harith] at hh
          exact hh
    | null => cases h
    | bool b => cases h
    | num x => cases h
    | str s => cases h
    | arr items => cases h

/-- The id loop raises as soon as the parsed list holds a non-dict. -/
theorem assignIds_error_of_nondict :
    ∀ (qs : List Json), (∃ q ∈ qs, isDict q = false) →
      ∀ n, ∃ e, assignIds qs n = Except.error e := by
  intro qs
  induction qs with
  | nil =>
    rintro ⟨q, hq, _⟩ n
    cases hq
  | cons q rest ih =>
    rintro ⟨q0, hq0, hnd⟩ n
    cases q with
    | obj fields =>
      rcases List.mem_cons.mp hq0 with rfl | hmem
      · simp [isDict] at hnd
      · obtain ⟨e, he⟩ := ih ⟨q0, hmem, hnd⟩ (n + 1)
        exact ⟨e, by simp only [assignIds, he]⟩
    | null => exact ⟨_, rfl⟩
    | bool b => exact ⟨_, rfl⟩
    | num x => exact ⟨_, rfl⟩
    | str s => exact ⟨_, rfl⟩
    | arr items => exact ⟨_, rfl⟩

/-- C4, amended.  When the scraped model output is a list of dicts,
`gen_questions` returns at most `num` items, each with its id field
overwritten to its 1-based position; when the list holds a non-dict
element, the id loop raises a `TypeError` instead of returning; when the
output is no list, the result is the empty list. -/
theorem gen_questions_amended :
    ∀ (gen : GenModel) (resume : Json) (num : ℕ),
      (∀ qs, extract_json (gen (questionsPrompt resume num) 800 (7/10))
            = some (Json.arr qs) →
        ((∀ q ∈ qs, isDict q = true) →
          ∃ qs', gen_questions gen resume num = Except.ok qs' ∧
            qs'.length ≤ num ∧
            ∀ i (h : i < qs'.length),
              objGet (qs'.get ⟨i, h⟩) "id"
                = some (Json.num ((i + 1 : ℕ) : ℚ))) ∧
        ((∃ q ∈ qs, isDict q = false) →
          ∃ e, gen_questions gen resume num = Except.error e)) ∧
      ((∀ qs, extract_json (gen (questionsPrompt resume num) 800 (7/10))
            ≠ some (Json.arr qs)) →
        gen_questions gen resume num = Except.ok []) := by
  intro gen resume num
  constructor
  · intro qs hqs
    constructor
    · intro hall
      obtain ⟨qsAll, hok⟩ := assignIds_ok_of_all_dict qs hall 0
      obtain ⟨hlen, hids⟩ := assignIds_ok_spec qs 0 qsAll hok
      refine ⟨qsAll.take num, ?_, List.length_take_le num qsAll, ?_⟩
      · simp only [gen_questions, hqs, hok]
      · intro i hi
        have hi' : i < qsAll.length := by
          simp only [List.length_take] at hi
          omega
        have hh := hids i hi'
        have hget : (qsAll.take num).get ⟨i, hi⟩ = qsAll.get ⟨i, hi'⟩ := by
          rw [List.get_eq_getElem, List.get_eq_getElem]
          exact List.getElem_take qsAll
        rw [hget, hh]
        norm_num
    · intro hex
      obtain ⟨e, he⟩ := assignIds_error_of_nondict qs hex 0
      exact ⟨e, by simp only [gen_questions, hqs, he]⟩
  · intro hne
    cases hd : extract_json (gen (questionsPrompt resume num) 800 (7/10)) with
    | none => simp only [gen_questions, hd]
    | some v =>
      cases v with
      | arr qs => exact absurd hd (hne qs)
      | null => simp only [gen_questions, hd]
      | bool b => simp only [gen_questions, hd]
      | num x => simp only [gen_questions, hd]
      | str s => simp only [gen_questions, hd]
      | obj fields => simp only [gen_questions, hd]

/-- Witness for C4: a model answering a one-dict array (with a nested
object, so the array survives the brace regex) gets the id overwritten;
a model answering prose yields the empty list. -/
theorem gen_questions_amended_witness :
    gen_questions (fun _ _ _ => "[\x7b\"q\": \x7b\x7d\x7d]") (Json.obj []) 5
        = Except.ok [Json.obj [("q", Json.obj []), ("id", Json.num 1)]] ∧
    gen_questions (fun _ _ _ => "plain text, no JSON") (Json.obj []) 5
        = Except.ok [] := by
  constructor
  · have h := (gen_questions_amended (fun _ _ _ => "[\x7b\"q\": \x7b\x7d\x7d]")
      (Json.obj []) 5).1 [Json.obj [("q", Json.obj [])]] rfl
    have h2 := h.1 (by
      intro q hq
      rw [List.mem_singleton] at hq
      subst hq
      rfl)
    obtain ⟨qs', hok, hlen, hids⟩ := h2
    have hc : gen_questions (fun _ _ _ => "[\x7b\"q\": \x7b\x7d\x7d]") (Json.obj []) 5
        = Except.ok [Json.obj [("q", Json.obj []), ("id", Json.num 1)]] := rfl
    exact hc
  · exact (gen_questions_amended (fun _ _ _ => "plain text, no JSON")
      (Json.obj []) 5).2 (fun qs h => Option.noConfusion h)

/-- C4, counterexample to the claim as stated: the model output `[1, 2]`
parses as a list, yet `gen_questions` does not return a (truncated,
id-corrected) list — the id loop raises a `TypeError` on the non-dict
elements. -/
theorem gen_questions_claim_counterexample :
    extract_json ((fun (_ : String) (_ : ℕ) (_ : ℚ) => "[1, 2]")
        (questionsPrompt (Json.obj []) 5) 800 (7/10))
      = some (Json.arr [Json.num 1, Json.num 2]) ∧
    gen_questions (fun _ _ _ => "[1, 2]") (Json.obj []) 5
      = Except.error "TypeError: item assignment on a non-dict" :=
  ⟨rfl, rfl⟩

end AIInterview
